import Mathlib

/-!
# Verification of the musium thumbnail-generation pipeline (`src/thumb_gen.rs`)

A shallow embedding of the thumbnail-generation core of the musium music
daemon: the per-album `GenThumb` state machine, the external-process
pipeline (ImageMagick `convert` followed by `guetzli`), the shared task
queue `GenThumbs`, and the planning loop of `generate_thumbnails`.

External effects (the file system, spawned child processes, the stderr
log, and writes to the persisted store) are threaded through an explicit
`World` state.  Nondeterministic inputs coming from the outside (what a
flac file contains, whether a spawn succeeds, how a child process exits
and what it writes to its stdout) are supplied by an `Env` of oracles;
a spawned `Child` carries the observable behaviour the program will see
from it (`waitResult`, `stdoutData`), mirroring `std::process::Child`.
-/

set_option autoImplicit false

namespace Musium

/-- A file-system path (`std::path::Path` / `PathBuf`). -/
abbrev Path := String

/-- Album identifier (`crate::prim::AlbumId`, a newtype over an integer). -/
structure AlbumId where
  val : Nat
deriving DecidableEq, Repr

/-- The raw bytes of one embedded picture (`claxon` cover data). -/
abbrev Picture := List Nat

deriving instance DecidableEq for Except

/-- The observable behaviour of a spawned child process
(`std::process::Child`): the result of `wait()` — either an OS-level
I/O error (`Except.error`) or an exit status code — and the bytes the
child writes to its piped stdout. -/
structure Child where
  waitResult : Except Unit Nat
  stdoutData : List Nat
deriving DecidableEq, Repr

/-- The error type of the crate (`crate::error::Error`), restricted to the
variants `thumb_gen.rs` can produce.  `IoError` covers the `?`-conversions
from `std::io::Error` (`remove_file`, `read_to_end`). -/
inductive Error where
  | ClaxonError (path : Path)
  | CommandError (msg : String)
  | IoError
deriving DecidableEq, Repr

/-- The state of generating a single thumbnail (`enum GenThumbState`). -/
inductive GenThumbState where
  | Pending (flac_filename : Path)
  | Resizing (child : Child) (out_path : Path)
  | Compressing (child : Child) (in_path : Path)
deriving DecidableEq, Repr

/-- Tracks the process of generating a thumbnail (`struct GenThumb`). -/
structure GenThumb where
  album_id : AlbumId
  state : GenThumbState
deriving DecidableEq, Repr

/-- The temp directory (`std::env::temp_dir()`), modelled as a constant. -/
def temp_dir : Path := "/tmp/"

/-- Return the intermediate file path where the resized but uncompressed
thumbnail is written (`get_tmp_fname`):
`temp_dir` followed by `musium-thumb-<album_id>.png`. -/
def get_tmp_fname (album_id : AlbumId) : Path :=
  temp_dir ++ "musium-thumb-" ++ toString album_id.val ++ ".png"

/-- A record of one spawned external process: the program name, its full
argument vector in order, and the bytes written to its piped stdin
(`[]` when nothing is written to it). -/
structure SpawnRec where
  program : String
  args : List String
  stdinBytes : List Nat
deriving DecidableEq, Repr

/-- The external world the pipeline acts on: which files exist, which
processes were spawned, which tasks completed the final transition and
with which drained bytes (ghost observation of the `Compressing` branch
of `advance`), what was written to the persisted store, and the stderr
log.  The observed core never appends to `storeWrites`: the store write
is a `TODO` in the source. -/
structure World where
  fs : Path → Bool
  spawned : List SpawnRec
  completed : List (AlbumId × List Nat)
  storeWrites : List (AlbumId × List Nat)
  stderrLines : List String

/-- The environment of oracles: what `claxon::FlacReader::open_ext`
yields for a given file (an error, or the list of embedded pictures in
file order), and what `Command::spawn` yields for the `convert` and
`guetzli` invocations of a given album's task. -/
structure Env where
  readFlac : Path → Except Unit (List Picture)
  spawnConvert : AlbumId → Except Unit Child
  spawnGuetzli : AlbumId → Except Unit Child

/-- The argument vector passed to ImageMagick `convert` in
`GenThumb::start_resize`, in source order: read stdin, flatten against a
black background and drop alpha, switch to the linear RGB colorspace,
Edge virtual-pixel mode, Cosine resampling filter, distort-resize to
140x140, back to sRGB, strip metadata, write the intermediate file. -/
def convertArgs (out_path : Path) : List String :=
  ["-",
   "-background", "black",
   "-alpha", "remove",
   "-alpha", "off",
   "-flatten",
   "-colorspace", "RGB",
   "-virtual-pixel", "Edge",
   "-filter", "Cosine",
   "-distort", "Resize", "140x140!",
   "-colorspace", "sRGB",
   "-strip",
   out_path]

/-- The argument vector passed to `guetzli` in `GenThumb::start_compress`:
quality 97, the intermediate file as input, stdout (via `/dev/fd/1`) as
output. -/
def guetzliArgs (out_path : Path) : List String :=
  ["--quality", "97", out_path, "/dev/fd/1"]

/-- From `Pending` state, read a picture, and start resizing it
(`GenThumb::start_resize`).  Returns `none` if the input file does not
contain any pictures; `Vec::pop` on the picture list takes the LAST
picture.  Spawning `convert` records the spawn (with the cover bytes
written to its stdin) and creates the intermediate file, which the
resize process writes during the `Resizing` stage. -/
def GenThumb.start_resize (t : GenThumb) (env : Env) (album_id : AlbumId)
    (flac_filename : Path) (w : World) :
    Except Error (Option GenThumb × World) :=
  match env.readFlac flac_filename with
  | .error _ => .error (.ClaxonError flac_filename)
  | .ok pictures =>
    match pictures.getLast? with
    | none => .ok (none, w)
    | some cover =>
      let out_path := get_tmp_fname album_id
      match env.spawnConvert album_id with
      | .error _ => .error (.CommandError "Failed to spawn ImageMagick convert.")
      | .ok child =>
        let w2 : World :=
          { w with
            spawned := w.spawned ++ [⟨"convert", convertArgs out_path, cover⟩],
            fs := fun p => if p = out_path then true else w.fs p }
        .ok (some { t with state := .Resizing child out_path }, w2)

/-- When in `Resizing` state, wait for that to complete, and start
compressing (`GenThumb::start_compress`).  NOTE (faithful to the source):
`convert.wait()` only fails on an OS-level error of waiting; the exit
STATUS the wait returns is discarded, so a non-zero exit of `convert` is
not detected.  The non-`Resizing` arm panics in the source and is
unreachable from `advance`; it is modelled as an error. -/
def GenThumb.start_compress (t : GenThumb) (env : Env) (w : World) :
    Except Error (GenThumb × World) :=
  match t.state with
  | .Resizing child out_path =>
    match child.waitResult with
    | .error _ => .error (.CommandError "Imagemagick convert failed.")
    | .ok _status =>
      match env.spawnGuetzli t.album_id with
      | .error _ => .error (.CommandError "Failed to spawn guetzli.")
      | .ok guetzli =>
        let w2 : World :=
          { w with spawned := w.spawned ++ [⟨"guetzli", guetzliArgs out_path, []⟩] }
        .ok ({ t with state := .Compressing guetzli out_path }, w2)
  | _ => .error (.CommandError "Can only call start_compress in Resizing state.")

/-- Take the next step that is needed to generate a thumbnail
(`GenThumb::advance`).  Returns `some` when a process is running in the
background and the task must be advanced again; `none` when thumbnail
generation for this task is complete.  In the `Compressing` branch:
`guetzli.wait()` again discards the exit status; the intermediate file is
deleted (`remove_file` fails with an I/O error if it does not exist);
the child's full stdout is drained into `jpg_bytes`; the byte count is
logged to stderr; the store insert is a `TODO` in the source and does
not happen. -/
def GenThumb.advance (t : GenThumb) (env : Env) (w : World) :
    Except Error (Option GenThumb × World) :=
  let album_id := t.album_id
  match t.state with
  | .Pending flac_filename =>
    t.start_resize env album_id flac_filename w
  | .Resizing _ _ =>
    (t.start_compress env w).map (fun r => (some r.1, r.2))
  | .Compressing child in_path =>
    match child.waitResult with
    | .error _ => .error (.CommandError "Guetzli failed.")
    | .ok _status =>
      if w.fs in_path then
        let jpg_bytes := child.stdoutData
        let w2 : World :=
          { w with
            fs := fun p => if p = in_path then false else w.fs p,
            completed := w.completed ++ [(album_id, jpg_bytes)],
            stderrLines := w.stderrLines ++
              [toString album_id.val ++ " compressed to " ++
               toString jpg_bytes.length ++ " bytes"] }
        .ok (none, w2)
      else
        .error .IoError

/-- The shared task queue together with the shared `Status` counters it
mutates (`struct GenThumbs`).  `files_processed_thumbnails` is the
relevant `Status` counter; `sent` logs the value of that counter in each
`Status` snapshot sent over the channel by `put`. -/
structure GenThumbs where
  tasks : List GenThumb
  files_processed_thumbnails : Nat
  sent : List Nat
deriving DecidableEq, Repr

/-- Take a task out of the queue (`GenThumbs::pop`); `Vec::pop` removes
and returns the LAST element. -/
def GenThumbs.pop (q : GenThumbs) : Option GenThumb × GenThumbs :=
  (q.tasks.getLast?, { q with tasks := q.tasks.dropLast })

/-- Handle the result of `GenThumb::advance` (`GenThumbs::put`).  A
non-terminal result (`some`) is pushed back onto the shared collection;
a terminal result (`none`) increments `files_processed_thumbnails` and
sends one `Status` snapshot. -/
def GenThumbs.put (q : GenThumbs) (result : Option GenThumb) : GenThumbs :=
  match result with
  | some next_task => { q with tasks := q.tasks ++ [next_task] }
  | none =>
    { q with
      files_processed_thumbnails := q.files_processed_thumbnails + 1,
      sent := q.sent ++ [q.files_processed_thumbnails + 1] }

/-- One track of the index, as the planning loop of
`generate_thumbnails` sees it: its album id and its source filename
(`index.get_filename(track.filename)`). -/
structure Track where
  album_id : AlbumId
  filename : Path
deriving DecidableEq, Repr

/-- Create an extract-and-resize operation, if needed (`GenThumb::new`).
The persisted store collaborator is the oracle `thumbCount`, modelling
`database::select_thumbnail_exists`: when it reports `0` for the album
the `Pending` task is returned, otherwise no task. -/
def GenThumb.new (thumbCount : AlbumId → Nat) (album_id : AlbumId)
    (flac_filename : Path) : Option GenThumb :=
  let task : GenThumb := { album_id := album_id, state := .Pending flac_filename }
  match thumbCount album_id with
  | 0 => some task
  | _ => none

/-- The planning loop of `generate_thumbnails`: walk the tracks carrying
`prev_album_id` (initialised to `AlbumId(0)` by the caller) and the
accumulated `pending_tasks`; at each track whose album differs from
`prev_album_id`, consult the store via `GenThumb::new` and push the task
if one is returned, then update `prev_album_id`. -/
def planLoop (thumbCount : AlbumId → Nat) (prev_album_id : AlbumId)
    (pending_tasks : List GenThumb) : List Track → List GenThumb
  | [] => pending_tasks
  | track :: rest =>
    if track.album_id ≠ prev_album_id then
      match GenThumb.new thumbCount track.album_id track.filename with
      | some task => planLoop thumbCount track.album_id (pending_tasks ++ [task]) rest
      | none => planLoop thumbCount track.album_id pending_tasks rest
    else
      planLoop thumbCount prev_album_id pending_tasks rest

/-- The task-planning phase of `generate_thumbnails`: the loop above
started with `prev_album_id = AlbumId(0)` and no pending tasks.
`files_to_process_thumbnails` is incremented once per emitted task, so
it equals the length of the returned list. -/
def planTasks (thumbCount : AlbumId → Nat) (tracks : List Track) : List GenThumb :=
  planLoop thumbCount ⟨0⟩ [] tracks

/-- The state of the worker pool of `generate_thumbnails`: the shared
queue (with its `Status` counters), the tasks currently held exclusively
by workers that are mid-`advance`, and the external world. -/
structure Pool where
  queue : GenThumbs
  inFlight : List GenThumb
  world : World

/-- One scheduler step of the worker pool, for an arbitrary interleaving:
either some worker pops the last task of the shared collection (the
mutex serialises pops, so the popped task is the last element at that
moment), or some worker that holds a task finishes its `advance` call
successfully and `put`s the result back under the mutex.  A worker whose
`advance` returns an error panics and the run aborts, so error results
produce no step. -/
inductive PoolStep (env : Env) : Pool → Pool → Prop
  | pop (p : Pool) (t : GenThumb) (rest : List GenThumb)
      (htasks : p.queue.tasks = rest ++ [t]) :
      PoolStep env p
        { p with
          queue := { p.queue with tasks := rest },
          inFlight := t :: p.inFlight }
  | finish (p : Pool) (t : GenThumb) (l r : List GenThumb)
      (res : Option GenThumb) (w2 : World)
      (hheld : p.inFlight = l ++ t :: r)
      (hadv : t.advance env p.world = .ok (res, w2)) :
      PoolStep env p
        { queue := p.queue.put res, inFlight := l ++ r, world := w2 }

/-- Position of a state along the pipeline
`Pending (0) → Resizing (1) → Compressing (2) → terminal (3)`. -/
def GenThumbState.rank : GenThumbState → Nat
  | .Pending _ => 0
  | .Resizing _ _ => 1
  | .Compressing _ _ => 2

/-- Rank of an `advance` result: a terminal result (`none`) sits past
every live state. -/
def resultRank : Option GenThumb → Nat
  | none => 3
  | some t => t.state.rank

/-- Flatten a list of album runs (first track, remaining tracks of the
same run) back into the track sequence the planner walks. -/
def flattenRuns : List (Track × List Track) → List Track
  | [] => []
  | r :: rs => r.1 :: (r.2 ++ flattenRuns rs)

/-! ## Concrete fixtures for witnesses and counterexamples -/

/-- An empty world: no files, no spawns, no completions, no store
writes, empty stderr. -/
def wNone : World :=
  { fs := fun _ => false, spawned := [], completed := [],
    storeWrites := [], stderrLines := [] }

/-- The intermediate path of album 1. -/
def tmp1 : Path := get_tmp_fname ⟨1⟩

/-- A child process that exits with status 1 (non-zero). -/
def childExit1 : Child := { waitResult := .ok 1, stdoutData := [] }

/-- A child process that exits with status 2 (non-zero) after writing
three bytes to stdout. -/
def childExit2 : Child := { waitResult := .ok 2, stdoutData := [9, 9, 9] }

/-- An encoder child that exits cleanly with two bytes of output. -/
def childDrain : Child := { waitResult := .ok 0, stdoutData := [7, 7] }

/-- An environment whose flac files contain no pictures and where no
spawn succeeds. -/
def env0 : Env :=
  { readFlac := fun _ => .ok [],
    spawnConvert := fun _ => .error (),
    spawnGuetzli := fun _ => .error () }

/-- An environment where spawning `guetzli` yields `childExit2`, whose
exit status is non-zero. -/
def envNonzero : Env :=
  { readFlac := fun _ => .error (),
    spawnConvert := fun _ => .error (),
    spawnGuetzli := fun _ => .ok childExit2 }

/-- An environment where spawning `guetzli` yields the cleanly exiting
`childDrain`. -/
def envDrain : Env :=
  { readFlac := fun _ => .error (),
    spawnConvert := fun _ => .error (),
    spawnGuetzli := fun _ => .ok childDrain }

/-- A world in which only the intermediate file of album 1 exists. -/
def wTmp1 : World :=
  { wNone with fs := fun p => if p = tmp1 then true else false }

/-- A pending task for album 1. -/
def tPend1 : GenThumb := { album_id := ⟨1⟩, state := .Pending "a.flac" }

/-- Album 1 in `Resizing` state, the resize child exiting non-zero. -/
def tResz1 : GenThumb := { album_id := ⟨1⟩, state := .Resizing childExit1 tmp1 }

/-- Album 1 in `Compressing` state with the non-zero-exiting encoder. -/
def tCompr2 : GenThumb := { album_id := ⟨1⟩, state := .Compressing childExit2 tmp1 }

/-- Album 1 in `Compressing` state with the cleanly exiting encoder. -/
def tCompr3 : GenThumb := { album_id := ⟨1⟩, state := .Compressing childDrain tmp1 }

/-- Initial pool for the skipped-task run: one pending task for album 1,
no thumbnail counter yet, empty world. -/
def p0 : Pool :=
  { queue := { tasks := [tPend1], files_processed_thumbnails := 0, sent := [] },
    inFlight := [], world := wNone }

/-- The pool after the only worker pops the single task. -/
def p1 : Pool :=
  { queue := { tasks := [], files_processed_thumbnails := 0, sent := [] },
    inFlight := [tPend1], world := wNone }

/-- The pool after the worker's `advance` returns the terminal result
for the cover-less task and `put` records it. -/
def p2 : Pool :=
  { queue := { tasks := [], files_processed_thumbnails := 1, sent := [1] },
    inFlight := [], world := wNone }

/-! ## Observation helpers (projections of an `advance` result) -/

/-- The resulting task state of a successful `advance` (`none` when the
call returned an error). -/
def okState (r : Except Error (Option GenThumb × World)) :
    Option (Option GenThumbState) :=
  match r with
  | .error _ => none
  | .ok (ot, _) => some (ot.map GenThumb.state)

/-- The `completed` ghost log of the world after a successful `advance`. -/
def okCompleted (r : Except Error (Option GenThumb × World)) :
    Option (List (AlbumId × List Nat)) :=
  match r with
  | .error _ => none
  | .ok (_, w) => some w.completed

/-- The persisted-store writes of the world after a successful `advance`. -/
def okStoreWrites (r : Except Error (Option GenThumb × World)) :
    Option (List (AlbumId × List Nat)) :=
  match r with
  | .error _ => none
  | .ok (_, w) => some w.storeWrites

/-- The stderr log of the world after a successful `advance`. -/
def okStderr (r : Except Error (Option GenThumb × World)) :
    Option (List String) :=
  match r with
  | .error _ => none
  | .ok (_, w) => some w.stderrLines

/-! ## Inversion lemmas for `GenThumb.advance` -/

/-- Inversion of a successful `advance` from `Pending`: either the flac
file has no pictures and the task terminates with the world untouched,
or the last picture is taken as cover, `convert` is spawned, and the
task moves to `Resizing`. -/
theorem advance_pending_inv (env : Env) (t : GenThumb) (f : Path) (w : World)
    (res : Option GenThumb) (w2 : World)
    (hstate : t.state = .Pending f)
    (hadv : t.advance env w = .ok (res, w2)) :
    (∃ pics, env.readFlac f = .ok pics ∧ pics.getLast? = none ∧
      res = none ∧ w2 = w) ∨
    (∃ pics cover child,
      env.readFlac f = .ok pics ∧ pics.getLast? = some cover ∧
      env.spawnConvert t.album_id = .ok child ∧
      res = some { album_id := t.album_id,
                   state := .Resizing child (get_tmp_fname t.album_id) } ∧
      w2 = { w with
        spawned := w.spawned ++
          [⟨"convert", convertArgs (get_tmp_fname t.album_id), cover⟩],
        fs := fun p => if p = get_tmp_fname t.album_id then true else w.fs p }) := by
  obtain ⟨album, st⟩ := t
  simp only at hstate
  subst hstate
  simp only [GenThumb.advance, GenThumb.start_resize] at hadv
  split at hadv
  · exact absurd hadv (by simp)
  · rename_i pics hre
    split at hadv
    · rename_i hl
      simp only [Except.ok.injEq, Prod.mk.injEq] at hadv
      exact Or.inl ⟨pics, hre, hl, hadv.1.symm, hadv.2.symm⟩
    · rename_i cover hl
      split at hadv
      · exact absurd hadv (by simp)
      · rename_i child hsp
        simp only [Except.ok.injEq, Prod.mk.injEq] at hadv
        exact Or.inr ⟨pics, cover, child, hre, hl, hsp, hadv.1.symm, hadv.2.symm⟩

/-- Inversion of a successful `advance` from `Resizing`: `wait` on the
resize child returned SOME exit status (which the code discards without
inspecting it), `guetzli` was spawned, and the task moves to
`Compressing` on the same intermediate path, the file system untouched. -/
theorem advance_resizing_inv (env : Env) (t : GenThumb) (child : Child)
    (out_path : Path) (w : World) (res : Option GenThumb) (w2 : World)
    (hstate : t.state = .Resizing child out_path)
    (hadv : t.advance env w = .ok (res, w2)) :
    ∃ status g, child.waitResult = .ok status ∧
      env.spawnGuetzli t.album_id = .ok g ∧
      res = some { album_id := t.album_id, state := .Compressing g out_path } ∧
      w2 = { w with spawned := w.spawned ++ [⟨"guetzli", guetzliArgs out_path, []⟩] } := by
  obtain ⟨album, st⟩ := t
  simp only at hstate
  subst hstate
  simp only [GenThumb.advance, GenThumb.start_compress] at hadv
  split at hadv
  · exact absurd hadv (by simp [Except.map])
  · rename_i status hw
    split at hadv
    · exact absurd hadv (by simp [Except.map])
    · rename_i g hsp
      simp only [Except.map, Except.ok.injEq, Prod.mk.injEq] at hadv
      exact ⟨status, g, hw, hsp, hadv.1.symm, hadv.2.symm⟩

/-- Inversion of a successful `advance` from `Compressing`: `wait` on
the encoder returned SOME exit status (again discarded), the
intermediate file existed and is deleted, the encoder's stdout is
drained, a stderr line is logged, and the task terminates.  Nothing is
appended to `storeWrites`. -/
theorem advance_compressing_inv (env : Env) (t : GenThumb) (child : Child)
    (in_path : Path) (w : World) (res : Option GenThumb) (w2 : World)
    (hstate : t.state = .Compressing child in_path)
    (hadv : t.advance env w = .ok (res, w2)) :
    ∃ status, child.waitResult = .ok status ∧ w.fs in_path = true ∧
      res = none ∧
      w2 = { w with
        fs := fun p => if p = in_path then false else w.fs p,
        completed := w.completed ++ [(t.album_id, child.stdoutData)],
        stderrLines := w.stderrLines ++
          [toString t.album_id.val ++ " compressed to " ++
           toString child.stdoutData.length ++ " bytes"] } := by
  obtain ⟨album, st⟩ := t
  simp only at hstate
  subst hstate
  simp only [GenThumb.advance] at hadv
  split at hadv
  · exact absurd hadv (by simp)
  · rename_i status hw
    split at hadv
    · rename_i hfs
      simp only [Except.ok.injEq, Prod.mk.injEq] at hadv
      exact ⟨status, hw, of_eq_true (eq_true hfs), hadv.1.symm, hadv.2.symm⟩
    · exact absurd hadv (by simp)

/-- Every live state has rank at most 2; only a terminal result has
rank 3. -/
theorem rank_le_two (st : GenThumbState) : st.rank ≤ 2 := by
  cases st <;> simp [GenThumbState.rank]

/-- A successful `advance` never touches the persisted store: the
`storeWrites` log of the world is unchanged by every transition (the
store insert is a `TODO` in the source). -/
theorem advance_preserves_storeWrites (env : Env) (t : GenThumb) (w : World)
    (res : Option GenThumb) (w2 : World)
    (hadv : t.advance env w = .ok (res, w2)) :
    w2.storeWrites = w.storeWrites := by
  cases hst : t.state with
  | Pending f =>
    rcases advance_pending_inv env t f w res w2 hst hadv with
      ⟨pics, _, _, _, hw⟩ | ⟨pics, cover, child, _, _, _, _, hw⟩ <;> rw [hw]
  | Resizing child out_path =>
    rcases advance_resizing_inv env t child out_path w res w2 hst hadv with
      ⟨status, g, _, _, _, hw⟩
    rw [hw]
  | Compressing child in_path =>
    rcases advance_compressing_inv env t child in_path w res w2 hst hadv with
      ⟨status, _, _, _, hw⟩
    rw [hw]

/-! ## Claim theorems -/

/-- C8: `GenThumbs::put` with a non-terminal result pushes the task back
onto the shared collection and leaves the `Status` counter and the
snapshot channel untouched; `put` with a terminal result leaves the
collection unchanged, increments `files_processed_thumbnails` by exactly
one, and sends exactly one snapshot (carrying the incremented counter). -/
theorem thumb_c8_put_frame :
    ∀ (q : GenThumbs) (t : GenThumb),
      (q.put (some t)).tasks = q.tasks ++ [t] ∧
      (q.put (some t)).files_processed_thumbnails = q.files_processed_thumbnails ∧
      (q.put (some t)).sent = q.sent ∧
      (q.put none).tasks = q.tasks ∧
      (q.put none).files_processed_thumbnails = q.files_processed_thumbnails + 1 ∧
      (q.put none).sent = q.sent ++ [q.files_processed_thumbnails + 1] := by
  intro q t
  exact ⟨rfl, rfl, rfl, rfl, rfl, rfl⟩

/-- Helper: every successful `advance` strictly increases the rank, and
does so by exactly one unless the result is terminal. -/
theorem advance_rank_lt (env : Env) (t : GenThumb) (w : World)
    (res : Option GenThumb) (w2 : World)
    (hadv : t.advance env w = .ok (res, w2)) :
    t.state.rank < resultRank res ∧
      (resultRank res = t.state.rank + 1 ∨ res = none) := by
  cases hst : t.state with
  | Pending f =>
    rcases advance_pending_inv env t f w res w2 hst hadv with
      ⟨pics, _, _, hres, _⟩ | ⟨pics, cover, child, _, _, _, hres, _⟩
    · subst hres
      simp [resultRank, hst, GenThumbState.rank]
    · subst hres
      simp [resultRank, hst, GenThumbState.rank]
  | Resizing child out_path =>
    rcases advance_resizing_inv env t child out_path w res w2 hst hadv with
      ⟨status, g, _, _, hres, _⟩
    subst hres
    simp [resultRank, hst, GenThumbState.rank]
  | Compressing child in_path =>
    rcases advance_compressing_inv env t child in_path w res w2 hst hadv with
      ⟨status, _, _, hres, _⟩
    subst hres
    simp [resultRank, hst, GenThumbState.rank]

/-- C5: every successful `advance` call performs exactly one strictly
forward transition (the rank `Pending 0 → Resizing 1 → Compressing 2 →
terminal 3` strictly increases, moving up by exactly one except for the
`Pending → Skipped` terminal shortcut, so no state is ever revisited),
and any task that survives two successful calls terminates on the
third: the happy path reaches the terminal result within 3 calls. -/
theorem thumb_c5_forward_progress :
    (∀ (env : Env) (t : GenThumb) (w : World) (res : Option GenThumb) (w2 : World),
      t.advance env w = .ok (res, w2) →
      t.state.rank < resultRank res ∧
        (resultRank res = t.state.rank + 1 ∨ res = none)) ∧
    (∀ (env : Env) (t t1 t2 : GenThumb) (w w1 w2 w3 : World) (res : Option GenThumb),
      t.advance env w = .ok (some t1, w1) →
      t1.advance env w1 = .ok (some t2, w2) →
      t2.advance env w2 = .ok (res, w3) →
      res = none) := by
  constructor
  · exact advance_rank_lt
  · intro env t t1 t2 w w1 w2 w3 res h1 h2 h3
    have k1 := (advance_rank_lt env t w (some t1) w1 h1).1
    have k2 := (advance_rank_lt env t1 w1 (some t2) w2 h2).1
    have k3 := (advance_rank_lt env t2 w2 res w3 h3).1
    simp only [resultRank] at k1 k2 k3
    cases res with
    | none => rfl
    | some t3 =>
      have k3x : t2.state.rank < t3.state.rank := k3
      have h3le := rank_le_two t3.state
      exfalso
      omega

/-- C5 witness: a pending task advanced in an environment whose flac
file has no pictures makes one strictly forward transition, to the
terminal result. -/
theorem thumb_c5_witness :
    tPend1.state.rank < resultRank none ∧
      (resultRank none = tPend1.state.rank + 1 ∨ (none : Option GenThumb) = none) :=
  thumb_c5_forward_progress.1 env0 tPend1 wNone none wNone rfl

/-- C6: a `Pending` task whose flac file opens successfully but contains
no embedded picture terminates as Skipped: `advance` succeeds with the
terminal result and the world completely unchanged (no process spawned,
no file written, no thumbnail produced); and when several pictures are
embedded, the LAST one (`Vec::pop`) is the cover streamed to the spawned
resize process. -/
theorem thumb_c6_skipped_and_last_cover :
    (∀ (env : Env) (t : GenThumb) (f : Path) (w : World) (pics : List Picture),
      t.state = .Pending f → env.readFlac f = .ok pics → pics = [] →
      t.advance env w = .ok (none, w)) ∧
    (∀ (env : Env) (t : GenThumb) (f : Path) (w : World) (pics : List Picture)
      (cover : Picture) (res : Option GenThumb) (w2 : World),
      t.state = .Pending f → env.readFlac f = .ok pics →
      pics.getLast? = some cover →
      t.advance env w = .ok (res, w2) →
      w2.spawned = w.spawned ++
        [⟨"convert", convertArgs (get_tmp_fname t.album_id), cover⟩]) := by
  constructor
  · intro env t f w pics hstate hread hpics
    subst hpics
    obtain ⟨album, st⟩ := t
    simp only at hstate
    subst hstate
    simp [GenThumb.advance, GenThumb.start_resize, hread]
  · intro env t f w pics cover res w2 hstate hread hlast hadv
    rcases advance_pending_inv env t f w res w2 hstate hadv with
      ⟨pics2, hread2, hlast2, _, _⟩ | ⟨pics2, cover2, child, hread2, hlast2, _, _, hw⟩
    · rw [hread] at hread2
      injection hread2 with hp
      subst hp
      rw [hlast] at hlast2
      exact absurd hlast2 (by simp)
    · rw [hread] at hread2
      injection hread2 with hp
      subst hp
      rw [hlast] at hlast2
      injection hlast2 with hc
      subst hc
      rw [hw]

/-- C6 witness: the cover-less task advances to the terminal result with
the world unchanged, and a two-picture file yields a spawn whose stdin
is the second (last) picture. -/
theorem thumb_c6_witness :
    tPend1.advance env0 wNone = .ok (none, wNone) :=
  thumb_c6_skipped_and_last_cover.1 env0 tPend1 "a.flac" wNone [] rfl rfl rfl

/-- C7: lifecycle of the intermediate file.  (1) A successful
`Pending → Resizing` transition moves to the deterministic per-album
path `get_tmp_fname` and the file exists from the start of `Resizing`;
(2) the `Resizing → Compressing` transition keeps the same path, leaves
the file system untouched, and the file still exists; (3) a successful
`Compressing` transition is terminal and deletes the intermediate file
before returning, so after `Done` the file no longer exists. -/
theorem thumb_c7_intermediate_file_lifecycle :
    (∀ (env : Env) (t : GenThumb) (f : Path) (w : World)
      (t1 : GenThumb) (w1 : World) (child : Child),
      t.state = .Pending f → env.spawnConvert t.album_id = .ok child →
      t.advance env w = .ok (some t1, w1) →
      t1.state = .Resizing child (get_tmp_fname t.album_id) ∧
        w1.fs (get_tmp_fname t.album_id) = true) ∧
    (∀ (env : Env) (t : GenThumb) (child : Child) (out_path : Path) (w : World)
      (res : Option GenThumb) (w1 : World) (g : Child),
      t.state = .Resizing child out_path → env.spawnGuetzli t.album_id = .ok g →
      t.advance env w = .ok (res, w1) →
      res = some { album_id := t.album_id, state := .Compressing g out_path } ∧
        w1.fs = w.fs) ∧
    (∀ (env : Env) (t : GenThumb) (child : Child) (in_path : Path) (w : World)
      (res : Option GenThumb) (w1 : World),
      t.state = .Compressing child in_path →
      t.advance env w = .ok (res, w1) →
      res = none ∧ w1.fs in_path = false) := by
  refine ⟨?crea, ?pres, ?dele⟩
  · intro env t f w t1 w1 child hstate hsp hadv
    rcases advance_pending_inv env t f w (some t1) w1 hstate hadv with
      ⟨pics, _, _, hres, _⟩ | ⟨pics, cover, child2, _, _, hsp2, hres, hw⟩
    · exact absurd hres (by simp)
    · rw [hsp] at hsp2
      injection hsp2 with hc
      subst hc
      injection hres with hres2
      subst hres2
      constructor
      · rfl
      · rw [hw]
        simp
  · intro env t child out_path w res w1 g hstate hsp hadv
    rcases advance_resizing_inv env t child out_path w res w1 hstate hadv with
      ⟨status, g2, _, hsp2, hres, hw⟩
    rw [hsp] at hsp2
    injection hsp2 with hg
    subst hg
    subst hres
    exact ⟨rfl, by rw [hw]⟩
  · intro env t child in_path w res w1 hstate hadv
    rcases advance_compressing_inv env t child in_path w res w1 hstate hadv with
      ⟨status, _, _, hres, hw⟩
    subst hres
    refine ⟨rfl, ?_⟩
    rw [hw]
    simp

/-- C7 witness: the terminal transition of the album-1 compressing task
deletes `tmp1`, which existed beforehand. -/
theorem thumb_c7_witness :
    ((none : Option GenThumb) = none ∧
      ({ wTmp1 with
          fs := fun p => if p = tmp1 then false else wTmp1.fs p,
          completed := wTmp1.completed ++ [(⟨1⟩, childDrain.stdoutData)],
          stderrLines := wTmp1.stderrLines ++
            [toString (AlbumId.mk 1).val ++ " compressed to " ++
             toString childDrain.stdoutData.length ++ " bytes"] } : World).fs tmp1 = false) :=
  thumb_c7_intermediate_file_lifecycle.2.2 envDrain tCompr3 childDrain tmp1 wTmp1
    none _ rfl rfl

/-- C9: a successful `Pending → Resizing` transition spawns exactly one
process, `convert`, streams the raw cover bytes to its stdin, and passes
exactly this argument vector in this order: stdin marker, background
flatten with alpha removal, linear colorspace (`RGB`), `Edge`
virtual-pixel mode, `Cosine` resample kernel, distort-resize to the
fixed square `140x140!`, back to the display colorspace (`sRGB`),
metadata strip, and finally the intermediate output path (a `.png`,
i.e. lossless). -/
theorem thumb_c9_convert_argument_contract :
    ∀ (env : Env) (t : GenThumb) (f : Path) (w : World) (pics : List Picture)
      (cover : Picture) (res : Option GenThumb) (w2 : World),
      t.state = .Pending f → env.readFlac f = .ok pics →
      pics.getLast? = some cover →
      t.advance env w = .ok (res, w2) →
      w2.spawned = w.spawned ++
        [⟨"convert",
          ["-",
           "-background", "black",
           "-alpha", "remove",
           "-alpha", "off",
           "-flatten",
           "-colorspace", "RGB",
           "-virtual-pixel", "Edge",
           "-filter", "Cosine",
           "-distort", "Resize", "140x140!",
           "-colorspace", "sRGB",
           "-strip",
           get_tmp_fname t.album_id],
          cover⟩] := by
  intro env t f w pics cover res w2 hstate hread hlast hadv
  rcases advance_pending_inv env t f w res w2 hstate hadv with
    ⟨pics2, hread2, hlast2, _, _⟩ | ⟨pics2, cover2, child, hread2, hlast2, _, _, hw⟩
  · rw [hread] at hread2
    injection hread2 with hp
    subst hp
    rw [hlast] at hlast2
    exact absurd hlast2 (by simp)
  · rw [hread] at hread2
    injection hread2 with hp
    subst hp
    rw [hlast] at hlast2
    injection hlast2 with hc
    subst hc
    rw [hw]
    rfl

/-- C9 witness: a concrete pending task with a two-picture flac file
spawns `convert` with the fixed argument vector, the last picture on
stdin. -/
theorem thumb_c9_witness :
    ({ wNone with
        spawned := wNone.spawned ++
          [⟨"convert", convertArgs (get_tmp_fname ⟨1⟩), [5, 6]⟩],
        fs := fun p => if p = get_tmp_fname ⟨1⟩ then true else wNone.fs p } : World).spawned =
      wNone.spawned ++
        [⟨"convert",
          ["-",
           "-background", "black",
           "-alpha", "remove",
           "-alpha", "off",
           "-flatten",
           "-colorspace", "RGB",
           "-virtual-pixel", "Edge",
           "-filter", "Cosine",
           "-distort", "Resize", "140x140!",
           "-colorspace", "sRGB",
           "-strip",
           get_tmp_fname ⟨1⟩],
          [5, 6]⟩] :=
  thumb_c9_convert_argument_contract
    { readFlac := fun _ => .ok [[3, 4], [5, 6]],
      spawnConvert := fun _ => .ok childDrain,
      spawnGuetzli := fun _ => .error () }
    tPend1 "a.flac" wNone [[3, 4], [5, 6]] [5, 6] _ _ rfl rfl rfl rfl

/-- C1 evaluation at the failing input: the resize child of `tResz1`
exits with the NON-ZERO status 1, yet `advance` succeeds and moves the
task on to `Compressing`; likewise the encoder child of `tCompr2` exits
with the non-zero status 2, yet `advance` succeeds with the terminal
result.  The exit status returned by `wait()` is discarded by the code,
so a non-zero exit of either external process is not fatal and the run
does not abort. -/
theorem thumb_c1_nonzero_exit_not_fatal :
    childExit1.waitResult = .ok 1 ∧
    childExit2.waitResult = .ok 2 ∧
    okState (tResz1.advance envNonzero wTmp1) =
      some (some (.Compressing childExit2 tmp1)) ∧
    okState (tCompr2.advance envNonzero wTmp1) = some none := by
  exact ⟨rfl, rfl, rfl, rfl⟩

/-- C3 evaluation: a task whose `Compressing → Done` transition succeeds
drains the encoder's full stdout (`[7, 7]`) into the byte buffer — the
completion carries `(album 1, [7, 7])` and the stderr log reports the
byte count — but NO write to the persisted store happens: `storeWrites`
stays empty (the insert is a `TODO` in the source), both in this
completed run and, by `advance_preserves_storeWrites`, in every run. -/
theorem thumb_c3_drained_but_no_store_write :
    okState (tCompr3.advance envDrain wTmp1) = some none ∧
    okCompleted (tCompr3.advance envDrain wTmp1) = some [(⟨1⟩, [7, 7])] ∧
    okStderr (tCompr3.advance envDrain wTmp1) = some ["1 compressed to 2 bytes"] ∧
    wTmp1.storeWrites = [] ∧
    okStoreWrites (tCompr3.advance envDrain wTmp1) = some [] := by
  exact ⟨rfl, rfl, rfl, rfl, rfl⟩

/-- `GenThumb::new` emits the `Pending` task exactly when the store
reports no existing thumbnail. -/
theorem new_some (tc : AlbumId → Nat) (a : AlbumId) (f : Path) (htc : tc a = 0) :
    GenThumb.new tc a f = some { album_id := a, state := .Pending f } := by
  simp [GenThumb.new, htc]

/-- Inversion of `GenThumb::new`: an emitted task is the `Pending` task
of that album and filename, and the store reported no thumbnail. -/
theorem new_inv (tc : AlbumId → Nat) (a : AlbumId) (f : Path) (task : GenThumb)
    (h : GenThumb.new tc a f = some task) :
    task = { album_id := a, state := .Pending f } ∧ tc a = 0 := by
  unfold GenThumb.new at h
  split at h
  · rename_i htc
    injection h with h2
    exact ⟨h2.symm, htc⟩
  · exact absurd h (by simp)

/-- A run of tracks whose album equals the carried `prev_album_id` is
skipped entirely by the planning loop. -/
theorem planLoop_skip_run (tc : AlbumId → Nat) (zs : List Track) :
    ∀ (prev : AlbumId) (pending : List GenThumb) (rest : List Track),
    (∀ tr ∈ zs, tr.album_id = prev) →
    planLoop tc prev pending (zs ++ rest) = planLoop tc prev pending rest := by
  induction zs with
  | nil =>
    intro prev pending rest _
    rfl
  | cons z zs2 ih =>
    intro prev pending rest h
    have hz : z.album_id = prev := h z (by simp)
    simp only [List.cons_append, planLoop]
    rw [if_neg (by simp [hz])]
    exact ih prev pending rest (fun tr htr => h tr (by simp [htr]))

/-- Every task the planning loop emits carries the album id of one of
its input tracks (stated for an arbitrary property of album ids). -/
theorem planLoop_album_mem (tc : AlbumId → Nat) (P : AlbumId → Prop) :
    ∀ (tracks : List Track) (prev : AlbumId) (pending : List GenThumb),
    (∀ task ∈ pending, P task.album_id) →
    (∀ tr ∈ tracks, P tr.album_id) →
    ∀ task ∈ planLoop tc prev pending tracks, P task.album_id := by
  intro tracks
  induction tracks with
  | nil =>
    intro prev pending hp _ task htask
    exact hp task htask
  | cons tr rest ih =>
    intro prev pending hp ht task htask
    simp only [planLoop] at htask
    by_cases hcond : tr.album_id ≠ prev
    · rw [if_pos hcond] at htask
      cases hnew : GenThumb.new tc tr.album_id tr.filename with
      | some task2 =>
        rw [hnew] at htask
        refine ih tr.album_id (pending ++ [task2]) ?_ ?_ task htask
        · intro task3 htask3
          rcases List.mem_append.mp htask3 with h3 | h3
          · exact hp task3 h3
          · have h4 : task3 = task2 := by simpa using h3
            have h5 := (new_inv tc tr.album_id tr.filename task2 hnew).1
            rw [h4, h5]
            exact ht tr (by simp)
        · intro tr2 htr2
          exact ht tr2 (by simp [htr2])
      | none =>
        rw [hnew] at htask
        exact ih tr.album_id pending hp (fun tr2 htr2 => ht tr2 (by simp [htr2])) task htask
    · rw [if_neg hcond] at htask
      exact ih prev pending hp (fun tr2 htr2 => ht tr2 (by simp [htr2])) task htask

/-- The planning loop on a sequence of album runs with pairwise distinct
album ids, none of which coincides with the carried `prev_album_id` at
its first run and where the store has no thumbnails, emits exactly one
`Pending` task per run, referencing the run's first filename. -/
theorem planLoop_runs (tc : AlbumId → Nat) :
    ∀ (runs : List (Track × List Track)) (prev : AlbumId) (pending : List GenThumb),
    (∀ a, tc a = 0) →
    (∀ r ∈ runs, ∀ tr ∈ r.2, tr.album_id = r.1.album_id) →
    (runs.map fun r => r.1.album_id).Nodup →
    (∀ r0 rs2, runs = r0 :: rs2 → r0.1.album_id ≠ prev) →
    planLoop tc prev pending (flattenRuns runs) =
      pending ++ runs.map (fun r =>
        { album_id := r.1.album_id, state := .Pending r.1.filename }) := by
  intro runs
  induction runs with
  | nil =>
    intro prev pending _ _ _ _
    simp [flattenRuns, planLoop]
  | cons r rs ih =>
    intro prev pending hstore hruns hnodup hhead
    have hne : r.1.album_id ≠ prev := hhead r rs rfl
    have hnew := new_some tc r.1.album_id r.1.filename (hstore r.1.album_id)
    simp only [flattenRuns, planLoop]
    rw [if_pos hne, hnew]
    show planLoop tc r.1.album_id
      (pending ++ [{ album_id := r.1.album_id, state := GenThumbState.Pending r.1.filename }])
      (r.2 ++ flattenRuns rs) = _
    have hskip := planLoop_skip_run tc r.2 r.1.album_id
      (pending ++ [{ album_id := r.1.album_id, state := .Pending r.1.filename }])
      (flattenRuns rs)
      (fun tr htr => hruns r (by simp) tr htr)
    rw [hskip]
    have hnodup2 : (r.1.album_id ∉ rs.map fun r2 => r2.1.album_id) ∧
        (rs.map fun r2 => r2.1.album_id).Nodup := by
      rw [List.map_cons] at hnodup
      exact List.nodup_cons.mp hnodup
    have hhead2 : ∀ r0 rs2, rs = r0 :: rs2 → r0.1.album_id ≠ r.1.album_id := by
      intro r0 rs2 hrs heq
      apply hnodup2.1
      rw [hrs, List.map_cons, ← heq]
      simp
    have hih := ih r.1.album_id
      (pending ++ [{ album_id := r.1.album_id, state := GenThumbState.Pending r.1.filename }])
      hstore
      (fun r2 hr2 tr htr => hruns r2 (by simp [hr2]) tr htr)
      hnodup2.2
      hhead2
    rw [hih]
    simp

/-- C10: a leading maximal run of tracks whose album id is the sentinel
value `AlbumId(0)` is invisible to the planner — no task is emitted for
that album whatever the store reports, because `prev_album_id` starts at
`AlbumId(0)` and the boundary check fails — while the remaining tracks
plan exactly as if the run were absent. -/
theorem thumb_c10_album_zero_sentinel (tc : AlbumId → Nat) (zs rest : List Track)
    (hz : zs ≠ [])
    (hzalb : ∀ tr ∈ zs, tr.album_id = ⟨0⟩)
    (hrest : ∀ tr ∈ rest, tr.album_id ≠ ⟨0⟩) :
    planTasks tc (zs ++ rest) = planTasks tc rest ∧
      AlbumId.mk 0 ∉ (planTasks tc (zs ++ rest)).map GenThumb.album_id := by
  have _hz := hz
  have h1 : planTasks tc (zs ++ rest) = planTasks tc rest :=
    planLoop_skip_run tc zs ⟨0⟩ [] rest hzalb
  refine ⟨h1, ?_⟩
  rw [h1]
  intro hmem
  rcases List.mem_map.mp hmem with ⟨task, htask, halb⟩
  have h2 := planLoop_album_mem tc (fun a => a ≠ AlbumId.mk 0) rest ⟨0⟩ []
    (by simp) hrest task htask
  exact h2 halb

/-- C10 witness: a single album-0 track followed by an album-1 track —
the planner emits only the album-1 task, exactly as if the album-0 track
were absent. -/
theorem thumb_c10_witness :
    planTasks (fun _ => 0)
        [{ album_id := ⟨0⟩, filename := "z.flac" },
         { album_id := ⟨1⟩, filename := "a.flac" }] =
      planTasks (fun _ => 0) [{ album_id := ⟨1⟩, filename := "a.flac" }] ∧
    AlbumId.mk 0 ∉
      (planTasks (fun _ => 0)
        [{ album_id := ⟨0⟩, filename := "z.flac" },
         { album_id := ⟨1⟩, filename := "a.flac" }]).map GenThumb.album_id :=
  thumb_c10_album_zero_sentinel (fun _ => 0)
    [{ album_id := ⟨0⟩, filename := "z.flac" }]
    [{ album_id := ⟨1⟩, filename := "a.flac" }]
    (by decide) (by decide) (by decide)

/-- C4 counterexample: a library with a single track, whose album id is
0 and which has no stored thumbnail.  There is one distinct album, all
of whose tracks are contiguous, yet the planner emits NO task (the claim
demands exactly one per distinct album): `prev_album_id` is initialised
to `AlbumId(0)`, so the first boundary check fails. -/
theorem thumb_c4_counterexample :
    planTasks (fun _ => 0) [{ album_id := ⟨0⟩, filename := "z.flac" }] = [] ∧
    (planTasks (fun _ => 0) [{ album_id := ⟨0⟩, filename := "z.flac" }]).length ≠ 1 := by
  exact ⟨rfl, by decide⟩

/-- C4 amended: for a track sequence given as maximal album runs with
pairwise distinct album ids, with no stored thumbnail for any album, and
whose FIRST run's album id is not the sentinel `AlbumId(0)`, the planner
emits exactly one `Pending` task per distinct album, referencing the
run's first track's source filename, independent of the number of
tracks per run. -/
theorem thumb_c4_one_task_per_album (tc : AlbumId → Nat)
    (runs : List (Track × List Track))
    (hstore : ∀ a, tc a = 0)
    (hruns : ∀ r ∈ runs, ∀ tr ∈ r.2, tr.album_id = r.1.album_id)
    (hnodup : (runs.map fun r => r.1.album_id).Nodup)
    (hfirst : (runs.map fun r => r.1.album_id).head? ≠ some ⟨0⟩) :
    planTasks tc (flattenRuns runs) =
      runs.map (fun r =>
        { album_id := r.1.album_id, state := .Pending r.1.filename }) := by
  have hhead : ∀ r0 rs2, runs = r0 :: rs2 → r0.1.album_id ≠ AlbumId.mk 0 := by
    intro r0 rs2 hrs heq
    apply hfirst
    rw [hrs, List.map_cons, List.head?_cons, heq]
  exact planLoop_runs tc runs ⟨0⟩ [] hstore hruns hnodup
    (fun r0 rs2 hrs => hhead r0 rs2 hrs)

/-- C4 witness: two runs — album 1 with two tracks, album 2 with one
track — plan to exactly the two `Pending` tasks, each referencing its
run's first filename. -/
theorem thumb_c4_witness :
    planTasks (fun _ => 0)
        (flattenRuns
          [({ album_id := ⟨1⟩, filename := "a.flac" },
            [{ album_id := ⟨1⟩, filename := "b.flac" }]),
           ({ album_id := ⟨2⟩, filename := "c.flac" }, [])]) =
      [{ album_id := ⟨1⟩, state := .Pending "a.flac" },
       { album_id := ⟨2⟩, state := .Pending "c.flac" }] :=
  thumb_c4_one_task_per_album (fun _ => 0)
    [({ album_id := ⟨1⟩, filename := "a.flac" },
      [{ album_id := ⟨1⟩, filename := "b.flac" }]),
     ({ album_id := ⟨2⟩, filename := "c.flac" }, [])]
    (fun _ => rfl) (by decide) (by decide) (by decide)

/-- One pool step preserves the sum of the `Status` counter and the
number of live (queued or in-flight) tasks: a pop moves a task, a
non-terminal finish returns it, a terminal finish trades one live task
for one counter increment. -/
theorem poolStep_sum_invariant (env : Env) (a b : Pool) (h : PoolStep env a b) :
    b.queue.files_processed_thumbnails + b.queue.tasks.length + b.inFlight.length =
      a.queue.files_processed_thumbnails + a.queue.tasks.length + a.inFlight.length := by
  cases h with
  | pop t rest htasks =>
    simp [htasks]
    omega
  | finish t l r res w2 hheld hadv =>
    cases res with
    | some t2 =>
      simp [GenThumbs.put, hheld]
      omega
    | none =>
      simp [GenThumbs.put, hheld]
      omega

/-- The sum invariant holds along any interleaved run of the pool. -/
theorem poolRun_sum_invariant (env : Env) (p q : Pool)
    (h : Relation.ReflTransGen (PoolStep env) p q) :
    q.queue.files_processed_thumbnails + q.queue.tasks.length + q.inFlight.length =
      p.queue.files_processed_thumbnails + p.queue.tasks.length + p.inFlight.length := by
  induction h with
  | refl => rfl
  | tail hab hstep ih =>
    rename_i b c
    rw [poolStep_sum_invariant env b c hstep]
    exact ih

/-- The two-step run of `p0`: the only worker pops the single pending
task, its `advance` returns the terminal (Skipped) result because the
flac file has no pictures, and `put` records it. -/
theorem c2_run_chain : Relation.ReflTransGen (PoolStep env0) p0 p2 := by
  have s1 : PoolStep env0 p0 p1 := PoolStep.pop p0 tPend1 [] rfl
  have s2 : PoolStep env0 p1 p2 :=
    PoolStep.finish p1 tPend1 [] [] none wNone rfl rfl
  exact Relation.ReflTransGen.head s1 (Relation.ReflTransGen.head s2 .refl)

/-- C2 counterexample: a completed run (shared collection and in-flight
set both empty) of a single task that resolves to `Skipped` (its flac
file has no cover).  `Status.files_processed` ends at 1, yet the number
of tasks that reached the `Done` terminal state (the `completed` log) is
0: the Skipped task DOES contribute to `files_processed`, refuting
`files_processed = files_to_process − skipped_count`. -/
theorem thumb_c2_counterexample :
    Relation.ReflTransGen (PoolStep env0) p0 p2 ∧
    p2.queue.tasks = [] ∧
    p2.inFlight = [] ∧
    p2.queue.files_processed_thumbnails = 1 ∧
    p2.world.completed.length = 0 ∧
    p2.queue.files_processed_thumbnails ≠ p2.world.completed.length :=
  ⟨c2_run_chain, rfl, rfl, rfl, rfl, by decide⟩

/-- C2 amended: for every initial task set and every worker interleaving
in which the run completes without error (shared collection and
in-flight set both empty at the end), the final value of
`Status.files_processed` equals the number of tasks that reached a
TERMINAL state — `Done` or `Skipped` alike — which is the initial number
of live tasks (`files_to_process` for a planner-produced set): a Skipped
task contributes to `files_processed` exactly like a Done task. -/
theorem thumb_c2_files_processed (env : Env) (p q : Pool)
    (hrun : Relation.ReflTransGen (PoolStep env) p q)
    (htasks : q.queue.tasks = [])
    (hflight : q.inFlight = []) :
    q.queue.files_processed_thumbnails =
      p.queue.files_processed_thumbnails + p.queue.tasks.length + p.inFlight.length := by
  have h := poolRun_sum_invariant env p q hrun
  rw [htasks, hflight] at h
  simpa using h

/-- C2 witness: along the concrete two-step run of the single-task pool,
the final counter equals the initial counter plus the one live task. -/
theorem thumb_c2_witness :
    p2.queue.files_processed_thumbnails =
      p0.queue.files_processed_thumbnails + p0.queue.tasks.length + p0.inFlight.length :=
  thumb_c2_files_processed env0 p0 p2 c2_run_chain rfl rfl

end Musium
